import Mathlib

/-!
Verification of the MotoSensei IGQA agent (src/agents/agent3/agent3.py).

The agent runs a session loop over a loaded repair guide: each tick reads a
video frame, extracts a visual signal, drains the audio queue to a transcript,
asks the reasoning engine for feedback, overlays the step on the frame, and
advances the step cursor when the operator presses the advance key.

The shallow embedding below translates each Python function into a Lean
function.  External collaborators (speech-to-text, reasoning engine, keyboard,
audio device, video file) are parameters.  The session loop is embedded as a
structural recursion over the finite list of frames the video source yields;
its result records the final cursor, the per-tick observations, and the way
the loop ended: `completed` is exit through the while-condition
(`step_index < len(repair_steps)` turning false), `aborted` is exit through
the `break` taken when `vid.read()` yields no frame, `crashed` is an uncaught
exception escaping the loop, and `noSteps` / `videoOpenFailed` are the two
early returns before the loop starts.
-/

namespace MotoSensei

/-- One repair step as consumed by the agent (`step['action']`, `step['tool']`). -/
structure Step where
  action : String
  tool : String
deriving Repr, DecidableEq

/-- The parsed IGGA guide JSON document, reduced to the association of field
names to step lists; `load_repair_steps_from_igga` only reads the
`"steps"` field with `dict.get`. -/
abbrev IggaDoc := List (String × List Step)

/-- Embedding of `load_repair_steps_from_igga`: `data.get("steps", [])`. -/
def load_repair_steps_from_igga (data : IggaDoc) : List Step :=
  match data.find? (fun kv => kv.1 == "steps") with
  | some kv => kv.2
  | none => []

/-- The audio queue constructed by `queue.Queue()` in `run_igqa`: an unbounded
FIFO queue (Python `queue.Queue()` is created with `maxsize=0`, meaning no
bound).  `items` lists the queued chunks front first. -/
structure Queue (α : Type) where
  items : List α
deriving Repr, DecidableEq

/-- The fresh empty queue `queue.Queue()`. -/
def Queue.empty {α : Type} : Queue α := ⟨[]⟩

/-- `q.put(x)`: appends at the back; the queue is unbounded so nothing is
ever evicted. -/
def Queue.put {α : Type} (q : Queue α) (a : α) : Queue α := ⟨q.items ++ [a]⟩

/-- An audio chunk: the int16 samples obtained by `np.frombuffer(..., np.int16)`
from one `stream.read(512)`. -/
abbrev Chunk := List Int

/-- Embedding of the `record_audio` producer: its loop body is
`q.put(stream.read(512))`; over a finite batch of chunks delivered by the
device it performs one `put` per chunk, in arrival order. -/
def record_audio (q : Queue Chunk) (incoming : List Chunk) : Queue Chunk :=
  incoming.foldl Queue.put q

/-- The `while not queue_audio.empty(): frames.append(queue_audio.get())`
drain loop of `analyze_audio`, on the queue contents: removes front elements
one at a time until empty, returning the removed list and the leftover. -/
def drainAllAux {α : Type} : List α → List α × List α
  | [] => ([], [])
  | a :: rest =>
      let r := drainAllAux rest
      (a :: r.1, r.2)

/-- Draining a queue: the removed chunks in FIFO order and the queue left
behind. -/
def Queue.drainAll {α : Type} (q : Queue α) : List α × Queue α :=
  let r := drainAllAux q.items
  (r.1, ⟨r.2⟩)

/-- Embedding of `analyze_audio`.  `stt` is the external Whisper collaborator
(`whisper_model.transcribe(...)` followed by `result.get("text", "")`),
mapping a concatenated sample block to its transcript text.  The result is
the returned value (`None` when no chunks were drained), the queue after the
drain, and the list of sample blocks actually sent to the collaborator (one
entry per `transcribe` call, recorded at the call site). -/
def analyze_audio (stt : List Int → String) (queue_audio : Queue Chunk) :
    Option String × Queue Chunk × List (List Int) :=
  let d := queue_audio.drainAll
  let frames := d.1
  if frames.isEmpty then (none, d.2, [])
  else
    let audio_data := frames.flatten
    (some (stt audio_data), d.2, [audio_data])

/-- A pixel, as the three 8-bit channel values of the frame matrix. -/
abbrev Pixel := Nat × Nat × Nat

/-- A video frame, flattened to its list of BGR pixels. -/
abbrev Frame := List Pixel

/-- `cv2.cvtColor(frame, cv2.COLOR_BGR2HSV)` on one 8-bit BGR pixel:
value = max channel, saturation = 255·(max−min)/max rounded, hue in
OpenCV 8-bit half-degrees in `[0, 180)`. -/
def bgrToHsv (p : Pixel) : Pixel :=
  let b := p.1
  let g := p.2.1
  let r := p.2.2
  let v := max r (max g b)
  let mn := min r (min g b)
  let d := v - mn
  let s := if v = 0 then 0 else (255 * d + v / 2) / v
  let h360 : Int :=
    if d = 0 then 0
    else if v = r then (60 * ((g : Int) - (b : Int))) / (d : Int)
    else if v = g then 120 + (60 * ((b : Int) - (r : Int))) / (d : Int)
    else 240 + (60 * ((r : Int) - (g : Int))) / (d : Int)
  let hpos := if h360 < 0 then h360 + 360 else h360
  ((hpos / 2).toNat, s, v)

/-- `cv2.inRange(hsv, (0, 70, 50), (10, 255, 255))` membership test for one
HSV pixel (both bounds inclusive). -/
def inRangeRed (hsv : Pixel) : Bool :=
  decide (0 ≤ hsv.1 ∧ hsv.1 ≤ 10 ∧ 70 ≤ hsv.2.1 ∧ hsv.2.1 ≤ 255 ∧
          50 ≤ hsv.2.2 ∧ hsv.2.2 ≤ 255)

/-- The mask value `cv2.inRange` writes for one pixel: 255 when the pixel is
inside the range, 0 otherwise. -/
def maskVal (p : Pixel) : Nat := if inRangeRed (bgrToHsv p) then 255 else 0

/-- Embedding of `analyze_video_frame`: convert to HSV, build the in-range
mask, and test `np.sum(mask) > 1000`. -/
def analyze_video_frame (frame : Frame) : Bool :=
  decide (1000 < (frame.map maskVal).sum)

/-- Python `str(bool)` as interpolated into the prompt f-string. -/
def pyBool (b : Bool) : String := if b then "True" else "False"

/-- The prompt f-string assembled by `generate_feedback` from the current
step, the visual signal and the user transcript. -/
def buildContext (step : Step) (visual_detected : Bool) (user_audio_text : String) : String :=
  "You are an AI mechanic guiding a human through a repair process. Current step: "
    ++ step.action
    ++ " Expected tool: " ++ step.tool
    ++ " Visual tool detected: " ++ pyBool visual_detected
    ++ " User commented: " ++ user_audio_text
    ++ " Give concise, conversational feedback."

/-- Embedding of `generate_feedback`: builds the context prompt and calls the
external reasoning engine (`client.models.generate_content`).  The source has
no `try`/`except`, so an engine fault is returned as-is (it would propagate
as a raised exception). -/
def generate_feedback (engineCall : String → Except String String)
    (step : Step) (visual_detected : Bool) (user_audio_text : String) :
    Except String String :=
  engineCall (buildContext step visual_detected user_audio_text)

/-- How a session run ended, as the control path the source takes:
`noSteps` and `videoOpenFailed` are the early returns, `completed` is the
while-condition turning false, `aborted` is the `break` on a failed
`vid.read()`, and `crashed e` is an uncaught exception `e` escaping the
loop. -/
inductive SessionStatus where
  | noSteps
  | videoOpenFailed
  | completed
  | aborted
  | crashed (err : String)
deriving Repr, DecidableEq

/-- The observations of one successfully completed tick of the loop body:
the cursor it ran at, the step it displayed, both analysis results, the
transcript string handed to `generate_feedback` (after `user_audio or ""`),
the feedback, the overlay text drawn by `cv2.putText`, and whether the
advance key was pressed. -/
structure TickLog where
  cursor : Nat
  step : Step
  visual : Bool
  audioResult : Option String
  transcript : String
  feedback : String
  overlay : String
  advance : Bool
deriving Repr, DecidableEq

/-- Result of the session loop: how it ended, the final value of
`step_index`, the per-tick log, and how many `vid.read()` and reasoning
engine calls were made. -/
structure LoopOut where
  status : SessionStatus
  finalCursor : Nat
  ticks : List TickLog
  readCalls : Nat
  engineCalls : Nat
deriving Repr, DecidableEq

/-- The environment of a run: the external collaborators.  `keys` gives the
`cv2.waitKey(10)` result of each tick, `arrivals` the chunks the audio
producer delivers into the queue before each tick drains it. -/
structure Env where
  stt : List Int → String
  engineCall : String → Except String String
  keys : Nat → Nat
  arrivals : Nat → List Chunk
  steps : List Step

/-- The `while step_index < len(repair_steps)` loop of `run_igqa`, by
recursion over the frames the video source will still yield (a failed
`vid.read()` is exactly the exhaustion of that list).  Each iteration first
checks the while-condition, then reads a frame, analyses it, drains the
audio queue, asks the engine for feedback, draws the overlay, and advances
`step_index` when `cv2.waitKey(10) & 0xFF == ord('n')` (key code 110). -/
def runLoop (env : Env) : List Frame → Nat → Nat → Queue Chunk → LoopOut
  | [], step_index, _, _ =>
      if step_index < env.steps.length then
        -- `vid.read()` returns no frame: the `break` aborts the loop.
        { status := .aborted, finalCursor := step_index, ticks := [],
          readCalls := 1, engineCalls := 0 }
      else
        { status := .completed, finalCursor := step_index, ticks := [],
          readCalls := 0, engineCalls := 0 }
  | frame :: rest, step_index, t, q =>
      if h : step_index < env.steps.length then
        let q1 := record_audio q (env.arrivals t)
        let visual_detected := analyze_video_frame frame
        let a := analyze_audio env.stt q1
        let user_audio := a.1
        let q2 := a.2.1
        let step := env.steps.get ⟨step_index, h⟩
        -- `generate_feedback(step, visual_detected, user_audio or "")`
        let transcript := user_audio.getD ""
        match generate_feedback env.engineCall step visual_detected transcript with
        | .error e =>
            -- no `try`/`except`: the exception escapes before the overlay.
            { status := .crashed e, finalCursor := step_index, ticks := [],
              readCalls := 1, engineCalls := 1 }
        | .ok fb =>
            let overlay := "Step " ++ toString (step_index + 1) ++ ": " ++ step.action
            let adv := env.keys t % 256 == 110
            let nextIndex := if adv then step_index + 1 else step_index
            let out := runLoop env rest nextIndex (t + 1) q2
            { status := out.status, finalCursor := out.finalCursor,
              ticks := { cursor := step_index, step := step,
                         visual := visual_detected, audioResult := user_audio,
                         transcript := transcript, feedback := fb,
                         overlay := overlay, advance := adv } :: out.ticks,
              readCalls := out.readCalls + 1, engineCalls := out.engineCalls + 1 }
      else
        { status := .completed, finalCursor := step_index, ticks := [],
          readCalls := 0, engineCalls := 0 }

/-- Result of one `run_igqa` call: the loop outcome plus whether
`cv2.VideoCapture` was reached and whether the audio thread was started. -/
structure RunResult where
  status : SessionStatus
  finalCursor : Nat
  ticks : List TickLog
  readCalls : Nat
  engineCalls : Nat
  videoCaptureCalled : Bool
  audioThreadStarted : Bool
deriving Repr, DecidableEq

/-- Embedding of `run_igqa`: loads the guide, returns early when it is empty,
opens the video source (`videoOpens` is `vid.isOpened()`), starts the audio
producer thread on a fresh unbounded queue, and runs the session loop from
`step_index = 0`. -/
def run_igqa (stt : List Int → String) (engineCall : String → Except String String)
    (keys : Nat → Nat) (arrivals : Nat → List Chunk)
    (videoOpens : Bool) (frames : List Frame) (doc : IggaDoc) : RunResult :=
  let repair_steps := load_repair_steps_from_igga doc
  if repair_steps.isEmpty then
    { status := .noSteps, finalCursor := 0, ticks := [], readCalls := 0,
      engineCalls := 0, videoCaptureCalled := false, audioThreadStarted := false }
  else if !videoOpens then
    { status := .videoOpenFailed, finalCursor := 0, ticks := [], readCalls := 0,
      engineCalls := 0, videoCaptureCalled := true, audioThreadStarted := false }
  else
    let env : Env := { stt := stt, engineCall := engineCall, keys := keys,
                       arrivals := arrivals, steps := repair_steps }
    let out := runLoop env frames 0 0 Queue.empty
    { status := out.status, finalCursor := out.finalCursor, ticks := out.ticks,
      readCalls := out.readCalls, engineCalls := out.engineCalls,
      videoCaptureCalled := true, audioThreadStarted := true }

/-! ### Helper lemmas -/

theorem drainAllAux_eq {α : Type} (l : List α) : drainAllAux l = (l, []) := by
  induction l with
  | nil => rfl
  | cons a rest ih => simp [drainAllAux, ih]

theorem record_audio_items (cs : List Chunk) :
    ∀ q : Queue Chunk, (record_audio q cs).items = q.items ++ cs := by
  induction cs with
  | nil => intro q; simp [record_audio]
  | cons c rest ih =>
      intro q
      have hstep : record_audio q (c :: rest) = record_audio (q.put c) rest := rfl
      rw [hstep, ih]
      simp [Queue.put]

theorem analyze_audio_eq (stt : List Int → String) (q : Queue Chunk) :
    analyze_audio stt q =
      if q.items.isEmpty then (none, Queue.empty, [])
      else (some (stt q.items.flatten), Queue.empty, [q.items.flatten]) := by
  simp [analyze_audio, Queue.drainAll, drainAllAux_eq, Queue.empty]

theorem sum_map_maskVal (frame : Frame) :
    (frame.map maskVal).sum =
      255 * (frame.filter (fun p => inRangeRed (bgrToHsv p))).length := by
  induction frame with
  | nil => simp
  | cons p rest ih =>
      by_cases hp : inRangeRed (bgrToHsv p)
      · simp [maskVal, hp, ih, List.filter_cons]
        omega
      · simp [maskVal, hp, ih, List.filter_cons]

/-! ### C7 -/

/-- C7: `drain_all` (the `while not empty: get()` loop of `analyze_audio`)
removes and returns every chunk currently in the buffer in FIFO order and
leaves the buffer empty, so a `drain_all` immediately followed by a second
`drain_all` returns an empty sequence from the second call. -/
theorem drain_all_exhaustive {α : Type} (q : Queue α) :
    (q.drainAll).1 = q.items ∧ ((q.drainAll).2).items = [] ∧
    (((q.drainAll).2).drainAll).1 = [] := by
  simp [Queue.drainAll, drainAllAux_eq]

/-! ### C2 -/

/-- C2 counterexample: the audio buffer constructed by `run_igqa` is
`queue.Queue()` — unbounded.  Pushing six chunks with no drains leaves all
six in the buffer (size 6, exceeding the claimed capacity of 4), nothing is
evicted and no drop counter exists, contradicting the claimed
capacity-4 / oldest-evicted / two-drops behaviour. -/
theorem audio_buffer_capacity_cex :
    (record_audio Queue.empty [[1],[2],[3],[4],[5],[6]]).items
      = [[1],[2],[3],[4],[5],[6]] ∧
    4 < (record_audio Queue.empty [[1],[2],[3],[4],[5],[6]]).items.length := by
  constructor
  · rfl
  · decide

/-- C2 amended: the audio buffer is an unbounded FIFO queue with no capacity
parameter and no drop counter; `put` appends, nothing is ever evicted, and
after any sequence of pushes with no drains the buffer holds every pushed
chunk in push order. -/
theorem audio_buffer_unbounded (cs : List Chunk) :
    (record_audio Queue.empty cs).items = cs ∧
    (record_audio Queue.empty cs).items.length = cs.length := by
  have h : (record_audio Queue.empty cs).items = cs := by
    rw [record_audio_items]
    simp [Queue.empty]
  exact ⟨h, by rw [h]⟩

/-! ### C6 -/

/-- C6 counterexample: on an empty drained sequence `analyze_audio` returns
`None`, not an empty transcript (`Some ""`). -/
theorem analyze_audio_none_cex :
    (analyze_audio (fun _ => "transcript") Queue.empty).1 = none ∧
    (analyze_audio (fun _ => "transcript") Queue.empty).1 ≠ some "" := by
  refine ⟨rfl, ?_⟩
  intro hcontra
  rw [show (analyze_audio (fun _ => "transcript") Queue.empty).1 = none from rfl]
    at hcontra
  exact Option.noConfusion hcontra

/-- C6 amended: given the drained chunk sequence, `analyze_audio` returns
`None` (no transcript, rather than an empty transcript) without invoking the
speech-to-text collaborator when the sequence is empty; when it is non-empty
it concatenates the chunks in FIFO order — which is production order, since
the producer appends at the back — into one sample block and invokes the
speech-to-text collaborator exactly once, on that block. -/
theorem analyze_audio_reducer_contract (stt : List Int → String) (cs : List Chunk) :
    (cs = [] →
      analyze_audio stt (record_audio Queue.empty cs) = (none, Queue.empty, [])) ∧
    (cs ≠ [] →
      analyze_audio stt (record_audio Queue.empty cs) =
        (some (stt cs.flatten), Queue.empty, [cs.flatten])) := by
  have hitems : (record_audio Queue.empty cs).items = cs := by
    have h := record_audio_items cs Queue.empty
    simpa [Queue.empty] using h
  rw [analyze_audio_eq, hitems]
  constructor
  · intro hc
    subst hc
    rfl
  · intro hc
    cases cs with
    | nil => exact absurd rfl hc
    | cons c rest => rfl

/-- C6 amended, witness: two concrete chunks are concatenated in production
order and sent to the collaborator once. -/
theorem analyze_audio_reducer_contract_witness :
    ([[1, 2], [3]] : List Chunk) ≠ [] ∧
    analyze_audio (fun _ => "ok") (record_audio Queue.empty [[1, 2], [3]]) =
      (some "ok", Queue.empty, [[1, 2, 3]]) :=
  ⟨by decide, (analyze_audio_reducer_contract (fun _ => "ok") [[1, 2], [3]]).2 (by decide)⟩

/-! ### C8 -/

/-- C8: `analyze_video_frame` is a pure, deterministic function of a single
frame: it converts the frame to HSV, thresholds the fixed range
`(0,70,50)..(10,255,255)`, and returns true exactly when the number of
in-range pixels exceeds the fixed threshold 3 (the source compares the mask
sum, 255 per matching pixel, against 1000; `255·k > 1000 ↔ k > 3`).  Two
calls on equal frames return equal booleans and no state is mutated. -/
theorem visual_extractor_threshold (frame : Frame) :
    (analyze_video_frame frame = true ↔
      3 < (frame.filter (fun p => inRangeRed (bgrToHsv p))).length) ∧
    (∀ g : Frame, frame = g → analyze_video_frame frame = analyze_video_frame g) := by
  constructor
  · have h := sum_map_maskVal frame
    simp only [analyze_video_frame, decide_eq_true_eq, h]
    omega
  · intro g hg
    rw [hg]

/-- C8 witness: a frame of four pure-red pixels has four in-range pixels,
so the extractor reports true. -/
theorem visual_extractor_threshold_witness :
    analyze_video_frame [(0, 0, 255), (0, 0, 255), (0, 0, 255), (0, 0, 255)] = true :=
  (visual_extractor_threshold [(0, 0, 255), (0, 0, 255), (0, 0, 255), (0, 0, 255)]).1.mpr
    (by decide)

/-! ### Session-loop lemmas -/

theorem runLoop_ticks_lt (env : Env) (frames : List Frame) :
    ∀ (c t : Nat) (q : Queue Chunk),
      ∀ l ∈ (runLoop env frames c t q).ticks, l.cursor < env.steps.length := by
  induction frames with
  | nil =>
      intro c t q l hl
      by_cases hc : c < env.steps.length <;> simp [runLoop, hc] at hl
  | cons f rest ih =>
      intro c t q l hl
      simp only [runLoop] at hl
      split at hl
      · split at hl
        · simp at hl
        · simp only [List.mem_cons] at hl
          rcases hl with h1 | h2
          · subst h1
            assumption
          · exact ih _ _ _ l h2
      · simp at hl

theorem runLoop_finalCursor_le (env : Env) (frames : List Frame) :
    ∀ (c t : Nat) (q : Queue Chunk), c ≤ env.steps.length →
      (runLoop env frames c t q).finalCursor ≤ env.steps.length := by
  induction frames with
  | nil =>
      intro c t q hc
      by_cases h : c < env.steps.length <;> simp [runLoop, h, hc]
  | cons f rest ih =>
      intro c t q hc
      simp only [runLoop]
      split
      · split
        · simpa using hc
        · rename_i h _ _ _
          exact ih _ _ _ (by split <;> omega)
      · simpa using hc

theorem runLoop_completed_iff (env : Env) (frames : List Frame) :
    ∀ (c t : Nat) (q : Queue Chunk), c ≤ env.steps.length →
      ((runLoop env frames c t q).status = .completed ↔
        (runLoop env frames c t q).finalCursor = env.steps.length) := by
  induction frames with
  | nil =>
      intro c t q hc
      by_cases h : c < env.steps.length <;> simp [runLoop, h] <;> omega
  | cons f rest ih =>
      intro c t q hc
      simp only [runLoop]
      split
      · split
        · rename_i h _ _ _
          simp
          omega
        · rename_i h _ _ _
          exact ih _ _ _ (by split <;> omega)
      · rename_i h
        simp
        omega

theorem runLoop_head_cursor (env : Env) (frames : List Frame) :
    ∀ (c t : Nat) (q : Queue Chunk) (l : TickLog),
      (runLoop env frames c t q).ticks.head? = some l → l.cursor = c := by
  cases frames with
  | nil =>
      intro c t q l hl
      by_cases h : c < env.steps.length <;> simp [runLoop, h] at hl
  | cons f rest =>
      intro c t q l hl
      simp only [runLoop] at hl
      split at hl
      · split at hl
        · simp at hl
        · simp only [List.head?_cons, Option.some.injEq] at hl
          subst hl
          rfl
      · simp at hl

theorem runLoop_chain (env : Env) (frames : List Frame) :
    ∀ (c t : Nat) (q : Queue Chunk),
      List.Chain' (fun a b => b.cursor = if a.advance then a.cursor + 1 else a.cursor)
        (runLoop env frames c t q).ticks := by
  induction frames with
  | nil =>
      intro c t q
      by_cases h : c < env.steps.length <;> simp [runLoop, h]
  | cons f rest ih =>
      intro c t q
      simp only [runLoop]
      split
      · split
        · simp
        · rw [List.chain'_cons']
          refine ⟨?_, ih _ _ _⟩
          intro b hb
          have hbc := runLoop_head_cursor env rest _ _ _ b hb
          simpa using hbc
      · simp

theorem runLoop_visits (env : Env) (frames : List Frame) :
    ∀ (c t : Nat) (q : Queue Chunk),
      (runLoop env frames c t q).status = .completed →
      ∀ i, c ≤ i → i < env.steps.length →
        ∃ l, l ∈ (runLoop env frames c t q).ticks ∧ l.cursor = i := by
  induction frames with
  | nil =>
      intro c t q hst i hci hin
      by_cases h : c < env.steps.length
      · simp [runLoop, h] at hst
      · omega
  | cons f rest ih =>
      intro c t q hst i hci hin
      revert hst
      simp only [runLoop]
      split
      · split
        · intro hst
          simp at hst
        · intro hst
          dsimp only at hst ⊢
          rcases Nat.eq_or_lt_of_le hci with heq | hlt
          · subst heq
            exact ⟨_, List.mem_cons_self _ _, rfl⟩
          · have hnext : (if (env.keys t % 256 == 110) = true then c + 1 else c) ≤ i := by
              split <;> omega
            obtain ⟨l, hmem, hcur⟩ := ih _ (t + 1) _ hst i hnext hin
            exact ⟨l, List.mem_cons_of_mem _ hmem, hcur⟩
      · intro _
        omega

theorem runLoop_status_cases (env : Env) (frames : List Frame) :
    ∀ (c t : Nat) (q : Queue Chunk),
      (runLoop env frames c t q).status = .completed ∨
      (runLoop env frames c t q).status = .aborted ∨
      ∃ e, (runLoop env frames c t q).status = .crashed e := by
  induction frames with
  | nil =>
      intro c t q
      by_cases h : c < env.steps.length <;> simp [runLoop, h]
  | cons f rest ih =>
      intro c t q
      simp only [runLoop]
      split
      · split
        · simp
        · exact ih _ _ _
      · simp

theorem runLoop_no_crash (env : Env)
    (heng : ∀ p e, env.engineCall p ≠ Except.error e) (frames : List Frame) :
    ∀ (c t : Nat) (q : Queue Chunk) (e : String),
      (runLoop env frames c t q).status ≠ .crashed e := by
  induction frames with
  | nil =>
      intro c t q e
      by_cases h : c < env.steps.length <;> simp [runLoop, h]
  | cons f rest ih =>
      intro c t q e
      simp only [runLoop]
      split
      · split
        · rename_i heq
          exact absurd heq (heng _ _)
        · exact ih _ _ _ _
      · simp

theorem runLoop_transcript (env : Env) (frames : List Frame) :
    ∀ (c t : Nat) (q : Queue Chunk),
      ∀ l ∈ (runLoop env frames c t q).ticks,
        l.transcript = l.audioResult.getD "" := by
  induction frames with
  | nil =>
      intro c t q l hl
      by_cases h : c < env.steps.length <;> simp [runLoop, h] at hl
  | cons f rest ih =>
      intro c t q l hl
      simp only [runLoop] at hl
      split at hl
      · split at hl
        · simp at hl
        · simp only [List.mem_cons] at hl
          rcases hl with h1 | h2
          · subst h1
            rfl
          · exact ih _ _ _ l h2
      · simp at hl

/-! ### Characterizations of the three control paths of `run_igqa` -/

theorem run_igqa_noSteps (stt : List Int → String)
    (engineCall : String → Except String String) (keys : Nat → Nat)
    (arrivals : Nat → List Chunk) (videoOpens : Bool) (frames : List Frame)
    (doc : IggaDoc) (hempty : load_repair_steps_from_igga doc = []) :
    run_igqa stt engineCall keys arrivals videoOpens frames doc =
      { status := .noSteps, finalCursor := 0, ticks := [], readCalls := 0,
        engineCalls := 0, videoCaptureCalled := false,
        audioThreadStarted := false } := by
  simp [run_igqa, hempty]

theorem run_igqa_vofail (stt : List Int → String)
    (engineCall : String → Except String String) (keys : Nat → Nat)
    (arrivals : Nat → List Chunk) (frames : List Frame) (doc : IggaDoc)
    (hne : load_repair_steps_from_igga doc ≠ []) :
    run_igqa stt engineCall keys arrivals false frames doc =
      { status := .videoOpenFailed, finalCursor := 0, ticks := [], readCalls := 0,
        engineCalls := 0, videoCaptureCalled := true,
        audioThreadStarted := false } := by
  have hie : (load_repair_steps_from_igga doc).isEmpty = false := by
    cases h : load_repair_steps_from_igga doc
    · exact absurd h hne
    · rfl
  simp [run_igqa, hie]

theorem run_igqa_main (stt : List Int → String)
    (engineCall : String → Except String String) (keys : Nat → Nat)
    (arrivals : Nat → List Chunk) (frames : List Frame) (doc : IggaDoc)
    (hne : load_repair_steps_from_igga doc ≠ []) :
    run_igqa stt engineCall keys arrivals true frames doc =
      { status := (runLoop { stt := stt, engineCall := engineCall, keys := keys,
                             arrivals := arrivals,
                             steps := load_repair_steps_from_igga doc }
                     frames 0 0 Queue.empty).status,
        finalCursor := (runLoop { stt := stt, engineCall := engineCall, keys := keys,
                                  arrivals := arrivals,
                                  steps := load_repair_steps_from_igga doc }
                          frames 0 0 Queue.empty).finalCursor,
        ticks := (runLoop { stt := stt, engineCall := engineCall, keys := keys,
                            arrivals := arrivals,
                            steps := load_repair_steps_from_igga doc }
                    frames 0 0 Queue.empty).ticks,
        readCalls := (runLoop { stt := stt, engineCall := engineCall, keys := keys,
                                arrivals := arrivals,
                                steps := load_repair_steps_from_igga doc }
                        frames 0 0 Queue.empty).readCalls,
        engineCalls := (runLoop { stt := stt, engineCall := engineCall, keys := keys,
                                  arrivals := arrivals,
                                  steps := load_repair_steps_from_igga doc }
                          frames 0 0 Queue.empty).engineCalls,
        videoCaptureCalled := true, audioThreadStarted := true } := by
  have hie : (load_repair_steps_from_igga doc).isEmpty = false := by
    cases h : load_repair_steps_from_igga doc
    · exact absurd h hne
    · rfl
  simp [run_igqa, hie]

/-! ### C1 -/

/-- C1: for every guide of length `n ≥ 1`, the session loop only ever indexes
cursor positions `< n` (no `(n+1)`-th step is evaluated), each logged cursor
follows the previous one unchanged or incremented by exactly one according to
that tick's advance signal, the session terminates in `Completed` exactly when
the final cursor equals `n`, and a completed session visited every position
`0..n-1`. -/
theorem session_cursor_discipline (stt : List Int → String)
    (engineCall : String → Except String String) (keys : Nat → Nat)
    (arrivals : Nat → List Chunk) (videoOpens : Bool) (frames : List Frame)
    (doc : IggaDoc)
    (hn : 1 ≤ (load_repair_steps_from_igga doc).length) :
    (∀ l ∈ (run_igqa stt engineCall keys arrivals videoOpens frames doc).ticks,
        l.cursor < (load_repair_steps_from_igga doc).length) ∧
    List.Chain' (fun a b => b.cursor = if a.advance then a.cursor + 1 else a.cursor)
      (run_igqa stt engineCall keys arrivals videoOpens frames doc).ticks ∧
    ((run_igqa stt engineCall keys arrivals videoOpens frames doc).status =
        SessionStatus.completed ↔
      (run_igqa stt engineCall keys arrivals videoOpens frames doc).finalCursor =
        (load_repair_steps_from_igga doc).length) ∧
    ((run_igqa stt engineCall keys arrivals videoOpens frames doc).status =
        SessionStatus.completed →
      ∀ i, i < (load_repair_steps_from_igga doc).length →
        ∃ l, l ∈ (run_igqa stt engineCall keys arrivals videoOpens frames doc).ticks ∧
          l.cursor = i) := by
  have hne : load_repair_steps_from_igga doc ≠ [] := by
    intro h
    rw [h] at hn
    simp at hn
  cases videoOpens with
  | false =>
      rw [run_igqa_vofail stt engineCall keys arrivals frames doc hne]
      refine ⟨by simp, by simp, ?_, by simp⟩
      simp
      omega
  | true =>
      rw [run_igqa_main stt engineCall keys arrivals frames doc hne]
      dsimp only
      exact ⟨runLoop_ticks_lt _ frames 0 0 Queue.empty,
             runLoop_chain _ frames 0 0 Queue.empty,
             runLoop_completed_iff _ frames 0 0 Queue.empty (Nat.zero_le _),
             fun hst i hin =>
               runLoop_visits _ frames 0 0 Queue.empty hst i (Nat.zero_le i) hin⟩

/-- C1 witness: a one-step guide, one frame, advance key pressed — the session
completes with the cursor at the guide length. -/
theorem session_cursor_discipline_witness :
    1 ≤ (load_repair_steps_from_igga
          [("steps", [⟨"Disconnect terminal", "wrench"⟩])]).length ∧
    ((run_igqa (fun _ => "") (fun _ => Except.ok "fb") (fun _ => 110) (fun _ => [])
        true [[(0, 0, 255)]] [("steps", [⟨"Disconnect terminal", "wrench"⟩])]).status =
        SessionStatus.completed ↔
      (run_igqa (fun _ => "") (fun _ => Except.ok "fb") (fun _ => 110) (fun _ => [])
        true [[(0, 0, 255)]]
        [("steps", [⟨"Disconnect terminal", "wrench"⟩])]).finalCursor =
        (load_repair_steps_from_igga
          [("steps", [⟨"Disconnect terminal", "wrench"⟩])]).length) :=
  ⟨by decide,
   (session_cursor_discipline (fun _ => "") (fun _ => Except.ok "fb") (fun _ => 110)
      (fun _ => []) true [[(0, 0, 255)]]
      [("steps", [⟨"Disconnect terminal", "wrench"⟩])] (by decide)).2.2.1⟩

/-! ### C3 -/

/-- C3 counterexample: `generate_feedback` has no `try`/`except`, so a
reasoning-engine fault on the first tick escapes the loop: the session ends
crashed with the raw fault, no tick completes (no overlay is rendered) and no
degraded "feedback unavailable" value is produced. -/
theorem feedback_fault_cex :
    (run_igqa (fun _ => "") (fun _ => Except.error "transport fault") (fun _ => 0)
        (fun _ => []) true [[(0, 0, 0)]] [("steps", [⟨"act", "tool"⟩])]).status =
      SessionStatus.crashed "transport fault" ∧
    (run_igqa (fun _ => "") (fun _ => Except.error "transport fault") (fun _ => 0)
        (fun _ => []) true [[(0, 0, 0)]] [("steps", [⟨"act", "tool"⟩])]).ticks = [] ∧
    (run_igqa (fun _ => "") (fun _ => Except.error "transport fault") (fun _ => 0)
        (fun _ => []) true [[(0, 0, 0)]]
        [("steps", [⟨"act", "tool"⟩])]).engineCalls = 1 := by
  refine ⟨?_, ?_, ?_⟩ <;> rfl

/-- C3 amended: if the reasoning-engine call made during a tick fails, the
fault propagates uncaught out of the loop: the session ends in the crashed
state carrying the raw fault after exactly that one engine call, the tick
renders no overlay, and no degraded feedback value is substituted. -/
theorem feedback_fault_propagates (stt : List Int → String)
    (engineCall : String → Except String String) (keys : Nat → Nat)
    (arrivals : Nat → List Chunk) (doc : IggaDoc) (e : String) (f : Frame)
    (rest : List Frame)
    (hne : load_repair_steps_from_igga doc ≠ [])
    (heng : ∀ p, engineCall p = Except.error e) :
    (run_igqa stt engineCall keys arrivals true (f :: rest) doc).status =
      SessionStatus.crashed e ∧
    (run_igqa stt engineCall keys arrivals true (f :: rest) doc).ticks = [] ∧
    (run_igqa stt engineCall keys arrivals true (f :: rest) doc).engineCalls = 1 ∧
    (run_igqa stt engineCall keys arrivals true (f :: rest) doc).readCalls = 1 := by
  have h0 : 0 < (load_repair_steps_from_igga doc).length := by
    cases hd : load_repair_steps_from_igga doc
    · exact absurd hd hne
    · simp
  rw [run_igqa_main stt engineCall keys arrivals (f :: rest) doc hne]
  dsimp only
  simp only [runLoop, generate_feedback, heng, dif_pos h0]
  exact ⟨trivial, trivial, trivial, trivial⟩

/-- C3 amended, witness: a constantly failing engine crashes a one-step
session on its first tick. -/
theorem feedback_fault_propagates_witness :
    (run_igqa (fun _ => "") (fun _ => Except.error "boom") (fun _ => 0)
        (fun _ => []) true ([(0, 0, 0)] :: []) [("steps", [⟨"act", "tool"⟩])]).status =
      SessionStatus.crashed "boom" ∧
    (run_igqa (fun _ => "") (fun _ => Except.error "boom") (fun _ => 0)
        (fun _ => []) true ([(0, 0, 0)] :: []) [("steps", [⟨"act", "tool"⟩])]).ticks = [] ∧
    (run_igqa (fun _ => "") (fun _ => Except.error "boom") (fun _ => 0)
        (fun _ => []) true ([(0, 0, 0)] :: [])
        [("steps", [⟨"act", "tool"⟩])]).engineCalls = 1 ∧
    (run_igqa (fun _ => "") (fun _ => Except.error "boom") (fun _ => 0)
        (fun _ => []) true ([(0, 0, 0)] :: [])
        [("steps", [⟨"act", "tool"⟩])]).readCalls = 1 :=
  feedback_fault_propagates (fun _ => "") (fun _ => Except.error "boom") (fun _ => 0)
    (fun _ => []) [("steps", [⟨"act", "tool"⟩])] "boom" [(0, 0, 0)] []
    (by decide) (fun _ => rfl)

/-! ### C4 -/

/-- C4: when the engine never faults and the video source opened, a session
over a non-empty guide ends either completed or aborted, and it ends aborted
— a state distinguishable from completed — exactly when the video source
stopped yielding frames before the cursor reached the guide length, leaving
the final cursor strictly below the guide length. -/
theorem video_exhaustion_aborts (stt : List Int → String)
    (engineCall : String → Except String String) (keys : Nat → Nat)
    (arrivals : Nat → List Chunk) (frames : List Frame) (doc : IggaDoc)
    (hn : 1 ≤ (load_repair_steps_from_igga doc).length)
    (heng : ∀ p e, engineCall p ≠ Except.error e) :
    ((run_igqa stt engineCall keys arrivals true frames doc).status =
        SessionStatus.completed ∨
      (run_igqa stt engineCall keys arrivals true frames doc).status =
        SessionStatus.aborted) ∧
    ((run_igqa stt engineCall keys arrivals true frames doc).status =
        SessionStatus.aborted ↔
      (run_igqa stt engineCall keys arrivals true frames doc).finalCursor <
        (load_repair_steps_from_igga doc).length) ∧
    SessionStatus.aborted ≠ SessionStatus.completed := by
  have hne : load_repair_steps_from_igga doc ≠ [] := by
    intro h
    rw [h] at hn
    simp at hn
  rw [run_igqa_main stt engineCall keys arrivals frames doc hne]
  dsimp only
  have hcases := runLoop_status_cases
    { stt := stt, engineCall := engineCall, keys := keys, arrivals := arrivals,
      steps := load_repair_steps_from_igga doc } frames 0 0 Queue.empty
  have hnc := runLoop_no_crash
    { stt := stt, engineCall := engineCall, keys := keys, arrivals := arrivals,
      steps := load_repair_steps_from_igga doc } heng frames 0 0 Queue.empty
  have hco :
      (runLoop { stt := stt, engineCall := engineCall, keys := keys,
                 arrivals := arrivals, steps := load_repair_steps_from_igga doc }
          frames 0 0 Queue.empty).status = SessionStatus.completed ∨
      (runLoop { stt := stt, engineCall := engineCall, keys := keys,
                 arrivals := arrivals, steps := load_repair_steps_from_igga doc }
          frames 0 0 Queue.empty).status = SessionStatus.aborted := by
    rcases hcases with h | h | ⟨e, h⟩
    · exact Or.inl h
    · exact Or.inr h
    · exact absurd h (hnc e)
  have hiff := runLoop_completed_iff
    { stt := stt, engineCall := engineCall, keys := keys, arrivals := arrivals,
      steps := load_repair_steps_from_igga doc } frames 0 0 Queue.empty
    (Nat.zero_le _)
  have hle := runLoop_finalCursor_le
    { stt := stt, engineCall := engineCall, keys := keys, arrivals := arrivals,
      steps := load_repair_steps_from_igga doc } frames 0 0 Queue.empty
    (Nat.zero_le _)
  dsimp only at hiff hle
  refine ⟨hco, ?_, by simp⟩
  constructor
  · intro hab
    rcases hco with hc | _
    · rw [hab] at hc
      exact absurd hc (by simp)
    · have hfin := fun h => (hiff.mpr h)
      by_contra hge
      have : (runLoop { stt := stt, engineCall := engineCall, keys := keys,
                        arrivals := arrivals,
                        steps := load_repair_steps_from_igga doc }
                frames 0 0 Queue.empty).finalCursor =
              (load_repair_steps_from_igga doc).length := by omega
      have hcomp := hiff.mpr this
      rw [hab] at hcomp
      exact absurd hcomp (by simp)
  · intro hlt
    rcases hco with hc | ha
    · have := hiff.mp hc
      omega
    · exact ha

/-- C4 witness: a five-step guide whose video source yields only two frames
aborts with the cursor strictly below 5. -/
theorem video_exhaustion_aborts_witness :
    (run_igqa (fun _ => "") (fun _ => Except.ok "fb") (fun _ => 110) (fun _ => [])
        true [[(0, 0, 0)], [(0, 0, 0)]]
        [("steps", [⟨"s1", "t1"⟩, ⟨"s2", "t2"⟩, ⟨"s3", "t3"⟩, ⟨"s4", "t4"⟩,
                    ⟨"s5", "t5"⟩])]).status = SessionStatus.aborted ↔
      (run_igqa (fun _ => "") (fun _ => Except.ok "fb") (fun _ => 110) (fun _ => [])
        true [[(0, 0, 0)], [(0, 0, 0)]]
        [("steps", [⟨"s1", "t1"⟩, ⟨"s2", "t2"⟩, ⟨"s3", "t3"⟩, ⟨"s4", "t4"⟩,
                    ⟨"s5", "t5"⟩])]).finalCursor <
        (load_repair_steps_from_igga
          [("steps", [⟨"s1", "t1"⟩, ⟨"s2", "t2"⟩, ⟨"s3", "t3"⟩, ⟨"s4", "t4"⟩,
                      ⟨"s5", "t5"⟩])]).length :=
  (video_exhaustion_aborts (fun _ => "") (fun _ => Except.ok "fb") (fun _ => 110)
    (fun _ => []) [[(0, 0, 0)], [(0, 0, 0)]]
    [("steps", [⟨"s1", "t1"⟩, ⟨"s2", "t2"⟩, ⟨"s3", "t3"⟩, ⟨"s4", "t4"⟩,
                ⟨"s5", "t5"⟩])]
    (by decide) (fun _ _ h => Except.noConfusion h)).2.1

/-! ### C5 -/

/-- C5: for a guide of length 0, `run_igqa` returns at its first guard and the
session never runs: no tick is executed, no frame is read, no feedback
request is made, the video source is never opened and the audio thread is
never started. -/
theorem empty_guide_never_runs (stt : List Int → String)
    (engineCall : String → Except String String) (keys : Nat → Nat)
    (arrivals : Nat → List Chunk) (videoOpens : Bool) (frames : List Frame)
    (doc : IggaDoc) (hempty : load_repair_steps_from_igga doc = []) :
    (run_igqa stt engineCall keys arrivals videoOpens frames doc).status =
      SessionStatus.noSteps ∧
    (run_igqa stt engineCall keys arrivals videoOpens frames doc).ticks = [] ∧
    (run_igqa stt engineCall keys arrivals videoOpens frames doc).readCalls = 0 ∧
    (run_igqa stt engineCall keys arrivals videoOpens frames doc).engineCalls = 0 ∧
    (run_igqa stt engineCall keys arrivals videoOpens frames doc).videoCaptureCalled
      = false ∧
    (run_igqa stt engineCall keys arrivals videoOpens frames doc).audioThreadStarted
      = false := by
  rw [run_igqa_noSteps stt engineCall keys arrivals videoOpens frames doc hempty]
  exact ⟨rfl, rfl, rfl, rfl, rfl, rfl⟩

/-- C5 witness: the explicitly empty guide document. -/
theorem empty_guide_never_runs_witness :
    (run_igqa (fun _ => "") (fun _ => Except.ok "fb") (fun _ => 110) (fun _ => [])
        true [[(0, 0, 0)]] [("steps", [])]).status = SessionStatus.noSteps ∧
    (run_igqa (fun _ => "") (fun _ => Except.ok "fb") (fun _ => 110) (fun _ => [])
        true [[(0, 0, 0)]] [("steps", [])]).ticks = [] ∧
    (run_igqa (fun _ => "") (fun _ => Except.ok "fb") (fun _ => 110) (fun _ => [])
        true [[(0, 0, 0)]] [("steps", [])]).readCalls = 0 ∧
    (run_igqa (fun _ => "") (fun _ => Except.ok "fb") (fun _ => 110) (fun _ => [])
        true [[(0, 0, 0)]] [("steps", [])]).engineCalls = 0 ∧
    (run_igqa (fun _ => "") (fun _ => Except.ok "fb") (fun _ => 110) (fun _ => [])
        true [[(0, 0, 0)]] [("steps", [])]).videoCaptureCalled = false ∧
    (run_igqa (fun _ => "") (fun _ => Except.ok "fb") (fun _ => 110) (fun _ => [])
        true [[(0, 0, 0)]] [("steps", [])]).audioThreadStarted = false :=
  empty_guide_never_runs (fun _ => "") (fun _ => Except.ok "fb") (fun _ => 110)
    (fun _ => []) true [[(0, 0, 0)]] [("steps", [])] (by decide)

/-! ### C9 -/

/-- C9: with no buffered audio `analyze_audio` returns `None` (not an empty
string), and every tick of every session hands `generate_feedback` the
transcript `audio or ""` — the audio result with `None` replaced by the empty
string — so the feedback requester never receives `None`. -/
theorem none_transcript_coerced (stt : List Int → String)
    (engineCall : String → Except String String) (keys : Nat → Nat)
    (arrivals : Nat → List Chunk) (videoOpens : Bool) (frames : List Frame)
    (doc : IggaDoc) :
    (analyze_audio stt Queue.empty).1 = none ∧
    (∀ l ∈ (run_igqa stt engineCall keys arrivals videoOpens frames doc).ticks,
      l.transcript = l.audioResult.getD "") := by
  refine ⟨rfl, ?_⟩
  intro l hl
  by_cases hempty : load_repair_steps_from_igga doc = []
  · rw [run_igqa_noSteps stt engineCall keys arrivals videoOpens frames doc hempty]
      at hl
    simp at hl
  · cases videoOpens with
    | false =>
        rw [run_igqa_vofail stt engineCall keys arrivals frames doc hempty] at hl
        simp at hl
    | true =>
        rw [run_igqa_main stt engineCall keys arrivals frames doc hempty] at hl
        exact runLoop_transcript _ frames 0 0 Queue.empty l hl

/-- C9 witness: a concrete one-tick session with no buffered audio logs
`audioResult = None` and `transcript = ""`. -/
theorem none_transcript_coerced_witness :
    (analyze_audio (fun _ => "") Queue.empty).1 = none ∧
    ({ cursor := 0, step := ⟨"act", "tool"⟩, visual := false, audioResult := none,
       transcript := "", feedback := "fb", overlay := "Step 1: act",
       advance := true } : TickLog).transcript =
      ({ cursor := 0, step := ⟨"act", "tool"⟩, visual := false, audioResult := none,
         transcript := "", feedback := "fb", overlay := "Step 1: act",
         advance := true } : TickLog).audioResult.getD "" :=
  ⟨(none_transcript_coerced (fun _ => "") (fun _ => Except.ok "fb") (fun _ => 110)
      (fun _ => []) true [[(0, 0, 0)]] [("steps", [⟨"act", "tool"⟩])]).1,
   (none_transcript_coerced (fun _ => "") (fun _ => Except.ok "fb") (fun _ => 110)
      (fun _ => []) true [[(0, 0, 0)]] [("steps", [⟨"act", "tool"⟩])]).2
     { cursor := 0, step := ⟨"act", "tool"⟩, visual := false, audioResult := none,
       transcript := "", feedback := "fb", overlay := "Step 1: act",
       advance := true }
     (by decide)⟩

/-! ### C10 -/

/-- C10: a guide document lacking a `"steps"` key loads as the empty step
list (`dict.get` default, no error), and the session then refuses to start
exactly as for an explicitly empty guide: identical result, video source
never opened, audio thread never started, no frame read, no tick. -/
theorem missing_steps_key_refuses (stt : List Int → String)
    (engineCall : String → Except String String) (keys : Nat → Nat)
    (arrivals : Nat → List Chunk) (videoOpens : Bool) (frames : List Frame)
    (doc : IggaDoc)
    (hdoc : doc.find? (fun kv => kv.1 == "steps") = none) :
    load_repair_steps_from_igga doc = [] ∧
    run_igqa stt engineCall keys arrivals videoOpens frames doc =
      run_igqa stt engineCall keys arrivals videoOpens frames [("steps", [])] ∧
    (run_igqa stt engineCall keys arrivals videoOpens frames doc).videoCaptureCalled
      = false ∧
    (run_igqa stt engineCall keys arrivals videoOpens frames doc).audioThreadStarted
      = false ∧
    (run_igqa stt engineCall keys arrivals videoOpens frames doc).readCalls = 0 ∧
    (run_igqa stt engineCall keys arrivals videoOpens frames doc).ticks = [] := by
  have hload : load_repair_steps_from_igga doc = [] := by
    simp [load_repair_steps_from_igga, hdoc]
  have h1 := run_igqa_noSteps stt engineCall keys arrivals videoOpens frames doc hload
  have h2 := run_igqa_noSteps stt engineCall keys arrivals videoOpens frames
    [("steps", [])] rfl
  refine ⟨hload, h1.trans h2.symm, ?_, ?_, ?_, ?_⟩ <;> rw [h1]

/-- C10 witness: a document whose only key is not `"steps"`. -/
theorem missing_steps_key_refuses_witness :
    load_repair_steps_from_igga [("parts", [⟨"act", "tool"⟩])] = [] ∧
    run_igqa (fun _ => "") (fun _ => Except.ok "fb") (fun _ => 110) (fun _ => [])
        true [[(0, 0, 0)]] [("parts", [⟨"act", "tool"⟩])] =
      run_igqa (fun _ => "") (fun _ => Except.ok "fb") (fun _ => 110) (fun _ => [])
        true [[(0, 0, 0)]] [("steps", [])] :=
  ⟨(missing_steps_key_refuses (fun _ => "") (fun _ => Except.ok "fb") (fun _ => 110)
      (fun _ => []) true [[(0, 0, 0)]] [("parts", [⟨"act", "tool"⟩])] (by decide)).1,
   (missing_steps_key_refuses (fun _ => "") (fun _ => Except.ok "fb") (fun _ => 110)
      (fun _ => []) true [[(0, 0, 0)]] [("parts", [⟨"act", "tool"⟩])] (by decide)).2.1⟩

end MotoSensei
